import Mathlib

/-!
Verification of the Monte Carlo retirement simulation worker
(`src/lib/calculations/monte-carlo.worker.ts`).

JavaScript numbers are modelled as exact rationals (`ℚ`).  The worker's
source of randomness (`boxMullerRandom` / `Math.random`) is modelled by
passing the sampled values in explicitly: `generateRandomReturn` takes its
three standard-normal draws as parameters, and the path simulator and the
orchestrator take the per-year blended returns as lists.
-/

namespace MonteCarlo

/-- The TypeScript interface `SimulationParams`. -/
structure SimulationParams where
  iterations : ℕ
  equitiesPercent : ℚ
  bondsPercent : ℚ
  cashPercent : ℚ
  startingBalance : ℚ
  annualWithdrawal : ℚ
  yearsInRetirement : ℕ
  inflationRate : ℚ

/-- The TypeScript interface `SimulationPath`. -/
structure SimulationPath where
  yearByYear : List ℚ
  success : Bool
  finalBalance : ℚ

/-- Mean return and standard deviation of one asset class. -/
structure AssetStats where
  mean : ℚ
  stdDev : ℚ

/-- Shape of the `ASSET_CLASS_STATS` constant. -/
structure AssetClassStats where
  equities : AssetStats
  bonds : AssetStats
  cash : AssetStats

/-- `ASSET_CLASS_STATS`: historical mean returns and standard deviations. -/
def ASSET_CLASS_STATS : AssetClassStats :=
  { equities := { mean := 0.10, stdDev := 0.18 }
    bonds := { mean := 0.05, stdDev := 0.06 }
    cash := { mean := 0.02, stdDev := 0.01 } }

/-- `generateRandomReturn`, with the three `boxMullerRandom()` draws passed in
explicitly (one independent draw per asset class, in source order). -/
def generateRandomReturn (equitiesPercent bondsPercent cashPercent zE zB zC : ℚ) : ℚ :=
  let equitiesReturn := ASSET_CLASS_STATS.equities.mean + zE * ASSET_CLASS_STATS.equities.stdDev
  let bondsReturn := ASSET_CLASS_STATS.bonds.mean + zB * ASSET_CLASS_STATS.bonds.stdDev
  let cashReturn := ASSET_CLASS_STATS.cash.mean + zC * ASSET_CLASS_STATS.cash.stdDev
  (equitiesPercent / 100) * equitiesReturn +
    (bondsPercent / 100) * bondsReturn +
    (cashPercent / 100) * cashReturn

/-- The body of the `for (let year = 1; year <= yearsInRetirement; year++)` loop of
`runSingleSimulation`, iterated over the list of sampled per-year blended returns.
Returns the recorded trajectory entries pushed by the loop together with the
final value of `balance`.  Mirrors the source order: apply the return, subtract
the withdrawal, record `Math.max(0, balance)`, inflate the withdrawal, then clamp
a negative balance to `0`. -/
def simLoop (inflationRate balance currentWithdrawal : ℚ) : List ℚ → List ℚ × ℚ
  | [] => ([], balance)
  | returnRate :: rest =>
    let b1 := balance * (1 + returnRate) - currentWithdrawal
    let recorded := max 0 b1
    let balance2 := if b1 < 0 then 0 else b1
    let nextWithdrawal := currentWithdrawal * (1 + inflationRate / 100)
    let out := simLoop inflationRate balance2 nextWithdrawal rest
    (recorded :: out.1, out.2)

/-- `runSingleSimulation`, with the per-year sampled blended returns supplied as a
list (one entry per simulated year; the source draws them via
`generateRandomReturn` inside the loop). -/
def runSingleSimulation (params : SimulationParams) (returns : List ℚ) : SimulationPath :=
  let out := simLoop params.inflationRate params.startingBalance params.annualWithdrawal returns
  { yearByYear := params.startingBalance :: out.1
    success := decide (out.2 > 0)
    finalBalance := out.2 }

/-- JavaScript remainder `x % 1`: `x` minus its truncation toward zero. -/
def jsMod1 (x : ℚ) : ℚ :=
  x - (if 0 ≤ x then (⌊x⌋ : ℚ) else (⌈x⌉ : ℚ))

/-- `percentile` from the worker: linear-interpolation percentile over a sorted
array.  Array indexing `sortedArray[i]` is modelled with `List.getD`; on every
call the worker makes the index is in bounds (see the bounds theorem below). -/
def percentile (sortedArray : List ℚ) (p : ℚ) : ℚ :=
  if sortedArray.length = 0 then 0
  else
    let index := (p / 100) * ((sortedArray.length : ℚ) - 1)
    let lower := ⌊index⌋
    let upper := ⌈index⌉
    let weight := jsMod1 index
    if lower = upper then sortedArray.getD lower.toNat 0
    else sortedArray.getD lower.toNat 0 * (1 - weight) + sortedArray.getD upper.toNat 0 * weight

/-- The ascending sort `.sort((a, b) => a - b)` used by the worker. -/
def sortAsc (l : List ℚ) : List ℚ := l.mergeSort (fun a b => a ≤ b)

/-- The five percentile band arrays of `SimulationResults.percentileOutcomes`. -/
structure PercentileOutcomes where
  p5 : List ℚ
  p25 : List ℚ
  p50 : List ℚ
  p75 : List ℚ
  p95 : List ℚ

/-- The TypeScript interface `SimulationResults`. -/
structure SimulationResults where
  successRate : ℚ
  medianFinalBalance : ℚ
  percentileOutcomes : PercentileOutcomes
  allFinalBalances : List ℚ
  worstCase : ℚ
  bestCase : ℚ

/-- `calculatePercentilePaths`: cross-path percentile bands, one entry per year
index `0 .. yearsInRetirement`. -/
def calculatePercentilePaths (allPaths : List SimulationPath) (yearsInRetirement : ℕ) :
    PercentileOutcomes :=
  let balancesAtYear := fun (year : ℕ) =>
    sortAsc (allPaths.map (fun path => path.yearByYear.getD year 0))
  { p5 := (List.range (yearsInRetirement + 1)).map (fun y => percentile (balancesAtYear y) 5)
    p25 := (List.range (yearsInRetirement + 1)).map (fun y => percentile (balancesAtYear y) 25)
    p50 := (List.range (yearsInRetirement + 1)).map (fun y => percentile (balancesAtYear y) 50)
    p75 := (List.range (yearsInRetirement + 1)).map (fun y => percentile (balancesAtYear y) 75)
    p95 := (List.range (yearsInRetirement + 1)).map (fun y => percentile (balancesAtYear y) 95) }

/-- The aggregation the worker's `self.onmessage` handler performs after the
simulation loop.  Row `i` of `returnsMatrix` holds the sampled per-year returns
consumed by path `i`. -/
def computeResults (params : SimulationParams) (returnsMatrix : List (List ℚ)) :
    SimulationResults :=
  let allPaths := returnsMatrix.map (runSingleSimulation params)
  let successfulPaths := allPaths.filter (fun path => path.success)
  let successRate := ((successfulPaths.length : ℚ) / (params.iterations : ℚ)) * 100
  let allFinalBalances := sortAsc (allPaths.map (fun path => path.finalBalance))
  let medianFinalBalance := percentile allFinalBalances 50
  let worstCase := allFinalBalances.getD 0 0
  let bestCase := allFinalBalances.getD (allFinalBalances.length - 1) 0
  { successRate := successRate
    medianFinalBalance := medianFinalBalance
    percentileOutcomes := calculatePercentilePaths allPaths params.yearsInRetirement
    allFinalBalances := allFinalBalances
    worstCase := worstCase
    bestCase := bestCase }

/-- Messages the worker posts during one `START_SIMULATION` run. -/
inductive WorkerMsg where
  | progress (pct : ℤ)
  | complete (results : SimulationResults)

/-- The progress guard of the simulation loop: `i > 0 && i % progressInterval === 0`.
When `progressInterval = 0` (iterations < 100) JavaScript evaluates `i % 0` to
`NaN` and the guard is false for every `i`; with `Nat` semantics `i % 0 = i`,
which together with `0 < i` is likewise false for every `i`. -/
def progressGuard (progressInterval i : ℕ) : Bool :=
  decide (0 < i) && decide (i % progressInterval = 0)

/-- `Math.floor((i / iterations) * 100)`: the percentage carried by a progress
notification. -/
def progressPct (iterations i : ℕ) : ℤ :=
  ⌊((i : ℚ) / (iterations : ℚ)) * 100⌋

/-- The progress percentages emitted during the loop, in emission order:
`progressInterval` is `Math.floor(iterations / 100)` and iteration index `i`
emits exactly when the progress guard holds. -/
def progressValues (iterations : ℕ) : List ℤ :=
  (List.range iterations).filterMap (fun i =>
    if progressGuard (iterations / 100) i then some (progressPct iterations i) else none)

/-- The full ordered message trace of one `START_SIMULATION` run: the progress
notifications emitted inside the loop, followed by the single completion
message carrying the results. -/
def runMessages (params : SimulationParams) (returnsMatrix : List (List ℚ)) : List WorkerMsg :=
  (progressValues params.iterations).map WorkerMsg.progress ++
    [WorkerMsg.complete (computeResults params returnsMatrix)]

/-! ### Helper lemmas about the path simulator -/

lemma clamp_eq_max (b1 : ℚ) : (if b1 < 0 then 0 else b1) = max 0 b1 := by
  by_cases h : b1 < 0
  · rw [if_pos h, max_eq_left h.le]
  · rw [if_neg h, max_eq_right (not_lt.mp h)]

lemma clamp_nonneg (b1 : ℚ) : 0 ≤ (if b1 < 0 then (0 : ℚ) else b1) := by
  rw [clamp_eq_max]; exact le_max_left _ _

lemma simLoop_getLastD (infl : ℚ) (rs : List ℚ) : ∀ (b w : ℚ),
    ((simLoop infl b w rs).1).getLastD b = (simLoop infl b w rs).2 := by
  induction rs with
  | nil => intro b w; rfl
  | cons r rest ih =>
    intro b w
    simp only [simLoop]
    rw [List.getLastD_cons, clamp_eq_max]
    exact ih _ _

lemma simLoop_nonneg (infl : ℚ) (rs : List ℚ) : ∀ (b w x : ℚ),
    x ∈ (simLoop infl b w rs).1 → 0 ≤ x := by
  induction rs with
  | nil => intro b w x hx; simp [simLoop] at hx
  | cons r rest ih =>
    intro b w x hx
    simp only [simLoop, List.mem_cons] at hx
    rcases hx with h | h
    · rw [h]; exact le_max_left 0 _
    · exact ih _ _ x h

lemma simLoop_zero (infl : ℚ) (hinfl : -100 ≤ infl) (rs : List ℚ) : ∀ (w : ℚ), 0 ≤ w →
    (simLoop infl 0 w rs).1 = List.replicate rs.length 0 ∧ (simLoop infl 0 w rs).2 = 0 := by
  induction rs with
  | nil => intro w hw; exact ⟨rfl, rfl⟩
  | cons r rest ih =>
    intro w hw
    have hb1 : (0 : ℚ) * (1 + r) - w = -w := by ring
    have hmul : 0 ≤ 1 + infl / 100 := by linarith
    have hw2 : 0 ≤ w * (1 + infl / 100) := mul_nonneg hw hmul
    have hrec : max 0 ((0 : ℚ) * (1 + r) - w) = 0 := by
      rw [hb1]; exact max_eq_left (by linarith)
    have hbal : (if (0 : ℚ) * (1 + r) - w < 0 then (0 : ℚ) else 0 * (1 + r) - w) = 0 := by
      rw [clamp_eq_max]; exact hrec
    simp only [simLoop, hrec, hbal]
    obtain ⟨h1, h2⟩ := ih (w * (1 + infl / 100)) hw2
    refine ⟨?_, h2⟩
    rw [h1, List.length_cons, List.replicate_succ]

lemma getD_nonneg (l : List ℚ) (h : ∀ x ∈ l, 0 ≤ x) (k : ℕ) : 0 ≤ l.getD k 0 := by
  induction l generalizing k with
  | nil => simp [List.getD]
  | cons a t ih =>
    cases k with
    | zero => exact h a (by simp)
    | succ k =>
      rw [List.getD_cons_succ]
      exact ih (fun x hx => h x (by simp [hx])) k

lemma getD_replicate_zero (n k : ℕ) : (List.replicate n (0 : ℚ)).getD k 0 = 0 := by
  induction n generalizing k with
  | zero => simp [List.getD]
  | succ n ih =>
    cases k with
    | zero => simp [List.replicate_succ]
    | succ k => simpa [List.replicate_succ] using ih k

lemma simLoop_depleted (infl : ℚ) (hinfl : -100 ≤ infl) (rs : List ℚ) :
    ∀ (b w : ℚ), 0 ≤ b → 0 ≤ w → ∀ (i j : ℕ), i ≤ j →
      (simLoop infl b w rs).1.getD i 0 = 0 → (simLoop infl b w rs).1.getD j 0 = 0 := by
  induction rs with
  | nil => intro b w hb hw i j hij hi; simp [simLoop, List.getD]
  | cons r rest ih =>
    intro b w hb hw i j hij hi
    have hmul : 0 ≤ 1 + infl / 100 := by linarith
    have hw2 : 0 ≤ w * (1 + infl / 100) := mul_nonneg hw hmul
    simp only [simLoop] at hi ⊢
    cases i with
    | zero =>
      rw [List.getD_cons_zero] at hi
      have hbal : (if b * (1 + r) - w < 0 then (0 : ℚ) else b * (1 + r) - w) = 0 := by
        rw [clamp_eq_max]; exact hi
      rw [hbal]
      cases j with
      | zero => rw [List.getD_cons_zero]; exact hi
      | succ j =>
        rw [List.getD_cons_succ, (simLoop_zero infl hinfl rest _ hw2).1]
        exact getD_replicate_zero _ _
    | succ i =>
      obtain ⟨j2, rfl⟩ : ∃ j2, j = j2 + 1 := ⟨j - 1, by omega⟩
      rw [List.getD_cons_succ] at hi
      rw [List.getD_cons_succ]
      exact ih _ _ (clamp_nonneg _) hw2 i j2 (by omega) hi

/-! ### Helper lemmas about the progress notifications -/

lemma progressPct_eq (it i : ℕ) (h : 0 < it) :
    progressPct it i = (((i * 100) / it : ℕ) : ℤ) := by
  unfold progressPct
  have h1 : ((i : ℚ) / (it : ℚ)) * 100 = ((i * 100 : ℕ) : ℚ) / ((it : ℕ) : ℚ) := by
    push_cast; ring
  rw [h1, ← Int.natCast_floor_eq_floor (by positivity), Nat.floor_div_eq_div]

lemma progressValues_eq_nat (it : ℕ) (h : 0 < it) :
    progressValues it = (List.range it).filterMap (fun i =>
      if progressGuard (it / 100) i then some (((i * 100) / it : ℕ) : ℤ) else none) := by
  unfold progressValues
  congr 1
  funext i
  rw [progressPct_eq it i h]

lemma filterMap_if_eq_map_filter {α : Type} (g : ℕ → Bool) (v : ℕ → α) (l : List ℕ) :
    (l.filterMap fun i => if g i then some (v i) else none) = (l.filter g).map v := by
  induction l with
  | nil => rfl
  | cons a t ih =>
    by_cases h : g a <;> simp [List.filterMap_cons, List.filter_cons, h, ih]

lemma length_filter_guard (q : ℕ) (n : ℕ) :
    ((List.range n).filter (fun i => progressGuard q i)).length = (n - 1) / q := by
  induction n with
  | zero => simp
  | succ n ih =>
    rw [List.range_succ, List.filter_append, List.length_append, ih]
    have hfil : (List.filter (fun i => progressGuard q i) [n]).length =
        if progressGuard q n then 1 else 0 := by
      by_cases h : progressGuard q n <;> simp [List.filter_cons, h]
    rw [hfil]
    cases n with
    | zero => simp [progressGuard]
    | succ m =>
      have hguard : progressGuard q (m + 1) = decide ((m + 1) % q = 0) := by
        simp [progressGuard]
      have h2 : m + 1 + 1 - 1 = m + 1 := rfl
      rw [hguard, h2, Nat.succ_div]
      by_cases hdvd : q ∣ (m + 1)
      · have hmod : (m + 1) % q = 0 := by
          obtain ⟨c, hc⟩ := hdvd
          rw [hc]; exact Nat.mul_mod_right q c
        simp [hmod, hdvd]
      · have hmod : (m + 1) % q ≠ 0 := fun hc => hdvd (Nat.dvd_of_mod_eq_zero hc)
        simp [hmod, hdvd]

/-! ### Helper lemmas about sorting -/

lemma sortAsc_sorted (l : List ℚ) : (sortAsc l).Sorted (· ≤ ·) := List.sorted_mergeSort' l

lemma sortAsc_perm (l : List ℚ) : List.Perm (sortAsc l) l := List.mergeSort_perm l _

lemma sortAsc_eq_self {l : List ℚ} (h : l.Sorted (· ≤ ·)) : sortAsc l = l :=
  List.mergeSort_eq_self h

lemma getD_zero_mem {l : List ℚ} (h : l ≠ []) : l.getD 0 0 ∈ l := by
  cases l with
  | nil => exact absurd rfl h
  | cons a t => rw [List.getD_cons_zero]; exact List.mem_cons_self a t

lemma getD_last_mem {l : List ℚ} (h : l ≠ []) : l.getD (l.length - 1) 0 ∈ l := by
  have hlen : l.length - 1 < l.length := by
    have : 0 < l.length := List.length_pos.mpr h
    omega
  rw [List.getD_eq_getElem l 0 hlen]
  exact List.getElem_mem hlen

lemma sorted_getD_zero_le {l : List ℚ} (hs : l.Sorted (· ≤ ·)) :
    ∀ x ∈ l, l.getD 0 0 ≤ x := by
  cases l with
  | nil => intro x hx; simp at hx
  | cons a t =>
    intro x hx
    rw [List.getD_cons_zero]
    rcases List.mem_cons.mp hx with rfl | hx2
    · exact le_refl x
    · exact (List.sorted_cons.mp hs).1 x hx2

lemma sorted_le_getD_last {l : List ℚ} (hs : l.Sorted (· ≤ ·)) (h : l ≠ []) :
    ∀ x ∈ l, x ≤ l.getD (l.length - 1) 0 := by
  induction l with
  | nil => intro x hx; simp at hx
  | cons a t ih =>
    intro x hx
    cases ht : t with
    | nil =>
      subst ht
      rcases List.mem_cons.mp hx with rfl | hx2
      · simp
      · simp at hx2
    | cons b t2 =>
      subst ht
      have heq : (a :: b :: t2).getD ((a :: b :: t2).length - 1) 0 =
          (b :: t2).getD ((b :: t2).length - 1) 0 := by
        simp [List.getD_cons_succ]
      rw [heq]
      rcases List.mem_cons.mp hx with rfl | hx2
      · exact (List.sorted_cons.mp hs).1 _ (getD_last_mem (by simp))
      · exact ih (List.sorted_cons.mp hs).2 (by simp) x hx2

/-! ### Concrete parameter bundles used by witnesses and counterexamples -/

/-- A typical parameter bundle with positive balance and withdrawal. -/
def RegularParams : SimulationParams :=
  { iterations := 1, equitiesPercent := 60, bondsPercent := 30, cashPercent := 10,
    startingBalance := 100, annualWithdrawal := 10, yearsInRetirement := 1,
    inflationRate := 3 }

/-- Parameters with an inflation rate below -100 percent: the inflated withdrawal
turns negative in year two. -/
def DeepNegInflParams : SimulationParams :=
  { iterations := 1, equitiesPercent := 100, bondsPercent := 0, cashPercent := 0,
    startingBalance := 0, annualWithdrawal := 100, yearsInRetirement := 2,
    inflationRate := -200 }

/-- Parameters with zero starting balance and zero withdrawal. -/
def ZeroZeroParams : SimulationParams :=
  { iterations := 1, equitiesPercent := 100, bondsPercent := 0, cashPercent := 0,
    startingBalance := 0, annualWithdrawal := 0, yearsInRetirement := 1,
    inflationRate := 0 }

/-- A run of 150 iterations (progress interval 1). -/
def MediumRunParams : SimulationParams :=
  { iterations := 150, equitiesPercent := 100, bondsPercent := 0, cashPercent := 0,
    startingBalance := 100, annualWithdrawal := 10, yearsInRetirement := 1,
    inflationRate := 3 }

/-- A run of 50 iterations (progress interval 0). -/
def SmallRunParams : SimulationParams :=
  { iterations := 50, equitiesPercent := 100, bondsPercent := 0, cashPercent := 0,
    startingBalance := 100, annualWithdrawal := 10, yearsInRetirement := 1,
    inflationRate := 3 }

/-- A two-path run whose final balances are 0 and 100. -/
def TwoPathParams : SimulationParams :=
  { iterations := 2, equitiesPercent := 100, bondsPercent := 0, cashPercent := 0,
    startingBalance := 100, annualWithdrawal := 0, yearsInRetirement := 1,
    inflationRate := 0 }

/-! ### Claim C1 -/

/-- Claim C1 (amended): on completion of a run over iterations ≥ 1 paths,
`medianFinalBalance` is `percentile(sorted final balances, 50)`, while
`worstCase` is the minimum final balance (`sorted[0]`) and `bestCase` is the
maximum final balance (`sorted[n-1]`), characterized here as a member of the
final-balance multiset below (resp. above) all its members. -/
theorem results_summary_stats (params : SimulationParams) (m : List (List ℚ))
    (hlen : m.length = params.iterations) (hit : 1 ≤ params.iterations) :
    (computeResults params m).medianFinalBalance =
        percentile (computeResults params m).allFinalBalances 50 ∧
    ((computeResults params m).worstCase ∈
        (m.map (runSingleSimulation params)).map (fun path => path.finalBalance) ∧
      ∀ x ∈ (m.map (runSingleSimulation params)).map (fun path => path.finalBalance),
        (computeResults params m).worstCase ≤ x) ∧
    ((computeResults params m).bestCase ∈
        (m.map (runSingleSimulation params)).map (fun path => path.finalBalance) ∧
      ∀ x ∈ (m.map (runSingleSimulation params)).map (fun path => path.finalBalance),
        x ≤ (computeResults params m).bestCase) := by
  have hm : m ≠ [] := by
    intro hc
    rw [hc] at hlen
    simp at hlen
    omega
  have hfbne : ((m.map (runSingleSimulation params)).map
      (fun path => path.finalBalance)) ≠ [] := by
    simp only [ne_eq, List.map_eq_nil_iff]
    exact hm
  have h1 : (computeResults params m).allFinalBalances =
      sortAsc ((m.map (runSingleSimulation params)).map (fun path => path.finalBalance)) := rfl
  have h2 : (computeResults params m).worstCase =
      (sortAsc ((m.map (runSingleSimulation params)).map
        (fun path => path.finalBalance))).getD 0 0 := rfl
  have h3 : (computeResults params m).bestCase =
      (sortAsc ((m.map (runSingleSimulation params)).map
        (fun path => path.finalBalance))).getD
          ((sortAsc ((m.map (runSingleSimulation params)).map
            (fun path => path.finalBalance))).length - 1) 0 := rfl
  have h4 : (computeResults params m).medianFinalBalance =
      percentile (sortAsc ((m.map (runSingleSimulation params)).map
        (fun path => path.finalBalance))) 50 := rfl
  have hsne : sortAsc ((m.map (runSingleSimulation params)).map
      (fun path => path.finalBalance)) ≠ [] := by
    intro hc
    have hpl := (sortAsc_perm ((m.map (runSingleSimulation params)).map
      (fun path => path.finalBalance))).length_eq
    rw [hc] at hpl
    exact hfbne (List.length_eq_zero.mp hpl.symm)
  refine ⟨by rw [h4, h1], ⟨?_, ?_⟩, ⟨?_, ?_⟩⟩
  · rw [h2]
    exact (sortAsc_perm _).mem_iff.mp (getD_zero_mem hsne)
  · intro x hx
    rw [h2]
    exact sorted_getD_zero_le (sortAsc_sorted _) x ((sortAsc_perm _).mem_iff.mpr hx)
  · rw [h3]
    exact (sortAsc_perm _).mem_iff.mp (getD_last_mem hsne)
  · intro x hx
    rw [h3]
    exact sorted_le_getD_last (sortAsc_sorted _) hsne x ((sortAsc_perm _).mem_iff.mpr hx)

/-- Claim C1 witness: the amended claim instantiated on the concrete two-path run. -/
theorem results_summary_witness :
    (computeResults TwoPathParams [[-1], [0]]).medianFinalBalance =
      percentile (computeResults TwoPathParams [[-1], [0]]).allFinalBalances 50 :=
  (results_summary_stats TwoPathParams [[-1], [0]] (by norm_num [TwoPathParams])
    (by norm_num [TwoPathParams])).1

/-- Claim C1 counterexample: on the two-path run with final balances 0 and 100,
the worker reports `worstCase = 0` and `bestCase = 100`, while the 5th and 95th
percentiles of the sorted final balances are 5 and 95 — so `worstCase` and
`bestCase` are not the 5th/95th percentiles as the claim states. -/
theorem worst_best_counterexample :
    (computeResults TwoPathParams [[-1], [0]]).allFinalBalances = [0, 100] ∧
    (computeResults TwoPathParams [[-1], [0]]).worstCase = 0 ∧
    percentile (computeResults TwoPathParams [[-1], [0]]).allFinalBalances 5 = 5 ∧
    (computeResults TwoPathParams [[-1], [0]]).bestCase = 100 ∧
    percentile (computeResults TwoPathParams [[-1], [0]]).allFinalBalances 95 = 95 := by
  have hfb : ((([[-1], [0]] : List (List ℚ)).map (runSingleSimulation TwoPathParams)).map
      (fun path => path.finalBalance)) = [0, 100] := by
    norm_num [TwoPathParams, runSingleSimulation, simLoop]
  have hall : (computeResults TwoPathParams [[-1], [0]]).allFinalBalances = [0, 100] := by
    show sortAsc ((([[-1], [0]] : List (List ℚ)).map (runSingleSimulation TwoPathParams)).map
      (fun path => path.finalBalance)) = [0, 100]
    rw [hfb]
    exact sortAsc_eq_self (by norm_num [List.sorted_cons])
  have hw : (computeResults TwoPathParams [[-1], [0]]).worstCase =
      ((computeResults TwoPathParams [[-1], [0]]).allFinalBalances).getD 0 0 := rfl
  have hb : (computeResults TwoPathParams [[-1], [0]]).bestCase =
      ((computeResults TwoPathParams [[-1], [0]]).allFinalBalances).getD
        (((computeResults TwoPathParams [[-1], [0]]).allFinalBalances).length - 1) 0 := rfl
  have hp5 : percentile [0, 100] 5 = 5 := by
    have hc : ⌈(1 / 20 : ℚ)⌉ = 1 := by
      rw [Int.ceil_eq_iff] <;> norm_num
    norm_num [percentile, jsMod1, hc]
  have hp95 : percentile [0, 100] 95 = 95 := by
    have hc : ⌈(19 / 20 : ℚ)⌉ = 1 := by
      rw [Int.ceil_eq_iff] <;> norm_num
    norm_num [percentile, jsMod1, hc]
  refine ⟨hall, ?_, ?_, ?_, ?_⟩
  · rw [hw, hall]; rfl
  · rw [hall]; exact hp5
  · rw [hb, hall]; rfl
  · rw [hall]; exact hp95

/-! ### Claim C2 -/

/-- Claim C2 (amended): for parameters with `startingBalance ≥ 0`,
`firstYearWithdrawal ≥ 0` and `inflationRatePct ≥ -100`, and every sequence of
sampled returns, every recorded trajectory element is ≥ 0, and once any element
equals 0 every subsequent element is also 0 (permanent depletion). -/
theorem trajectory_floor_and_depletion (params : SimulationParams) (returns : List ℚ)
    (hsb : 0 ≤ params.startingBalance) (hw : 0 ≤ params.annualWithdrawal)
    (hinfl : -100 ≤ params.inflationRate) :
    (∀ i, 0 ≤ (runSingleSimulation params returns).yearByYear.getD i 0) ∧
    (∀ i j, i ≤ j → (runSingleSimulation params returns).yearByYear.getD i 0 = 0 →
      (runSingleSimulation params returns).yearByYear.getD j 0 = 0) := by
  constructor
  · intro i
    simp only [runSingleSimulation]
    cases i with
    | zero => rw [List.getD_cons_zero]; exact hsb
    | succ i =>
      rw [List.getD_cons_succ]
      exact getD_nonneg _ (fun x hx => simLoop_nonneg _ _ _ _ x hx) i
  · intro i j hij hi
    simp only [runSingleSimulation] at hi ⊢
    cases i with
    | zero =>
      rw [List.getD_cons_zero] at hi
      cases j with
      | zero => rw [List.getD_cons_zero]; exact hi
      | succ j =>
        rw [List.getD_cons_succ, hi, (simLoop_zero params.inflationRate hinfl returns _ hw).1]
        exact getD_replicate_zero _ _
    | succ i =>
      obtain ⟨j2, rfl⟩ : ∃ j2, j = j2 + 1 := ⟨j - 1, by omega⟩
      rw [List.getD_cons_succ] at hi
      rw [List.getD_cons_succ]
      exact simLoop_depleted params.inflationRate hinfl returns _ _ hsb hw i j2 (by omega) hi

/-- Claim C2 witness: the amended claim instantiated at regular parameters. -/
theorem trajectory_floor_witness :
    0 ≤ (runSingleSimulation RegularParams [1 / 2]).yearByYear.getD 1 0 :=
  (trajectory_floor_and_depletion RegularParams [1 / 2] (by norm_num [RegularParams])
    (by norm_num [RegularParams]) (by norm_num [RegularParams])).1 1

/-- Claim C2 counterexample: with `startingBalance = 0 ≥ 0`,
`firstYearWithdrawal = 100 ≥ 0`, `yearsInRetirement = 2 ≥ 1` and inflation rate
-200 (an allowed decimal under the claim), the trajectory is `[0, 0, 100]`: the
element at index 1 is 0 yet the element at index 2 is 100, so a depleted path
recovers, contradicting the claim. -/
theorem depletion_counterexample :
    0 ≤ DeepNegInflParams.startingBalance ∧ 0 ≤ DeepNegInflParams.annualWithdrawal ∧
    1 ≤ DeepNegInflParams.yearsInRetirement ∧
    (runSingleSimulation DeepNegInflParams [0, 0]).yearByYear.getD 1 0 = 0 ∧
    (runSingleSimulation DeepNegInflParams [0, 0]).yearByYear.getD 2 0 = 100 := by
  refine ⟨by norm_num [DeepNegInflParams], by norm_num [DeepNegInflParams],
    by norm_num [DeepNegInflParams], ?_, ?_⟩ <;>
    norm_num [DeepNegInflParams, runSingleSimulation, simLoop]

/-! ### Claim C3 -/

/-- Claim C3 (amended): for every run with iterations ≥ 1 the emitted progress
percentages are non-decreasing (not strictly increasing), and the completion
message is the last message of the run — every earlier message is a progress
message. -/
theorem progress_monotone_and_complete_last (params : SimulationParams)
    (m : List (List ℚ)) (h : 1 ≤ params.iterations) :
    List.Chain' (· ≤ ·) (progressValues params.iterations) ∧
    (runMessages params m).getLast? =
      some (WorkerMsg.complete (computeResults params m)) ∧
    ∀ msg ∈ (runMessages params m).dropLast, ∃ pct, msg = WorkerMsg.progress pct := by
  refine ⟨?_, ?_, ?_⟩
  · rw [progressValues_eq_nat _ h, filterMap_if_eq_map_filter]
    refine List.Pairwise.chain'
      (List.Pairwise.map _ ?_ ((List.pairwise_lt_range _).filter _))
    intro a b hab
    exact_mod_cast Nat.div_le_div_right (Nat.mul_le_mul_right 100 hab.le)
  · rw [runMessages]
    exact List.getLast?_concat _
  · rw [runMessages, List.dropLast_concat]
    intro msg hmsg
    obtain ⟨pct, _, rfl⟩ := List.mem_map.mp hmsg
    exact ⟨pct, rfl⟩

/-- Claim C3 witness: the amended claim instantiated on a 150-iteration run. -/
theorem progress_monotone_witness :
    (runMessages MediumRunParams []).getLast? =
      some (WorkerMsg.complete (computeResults MediumRunParams [])) :=
  (progress_monotone_and_complete_last MediumRunParams []
    (by norm_num [MediumRunParams])).2.1

set_option maxRecDepth 4000 in
/-- Claim C3 counterexample: for a run with 150 iterations the progress
percentages at emission positions 2 and 3 are both 2, so the sequence of
progress percentages is not strictly increasing. -/
theorem progress_not_strictly_increasing :
    (progressValues 150).getD 2 0 = 2 ∧ (progressValues 150).getD 3 0 = 2 ∧
    ¬ List.Chain' (· < ·) (progressValues 150) := by
  have h := progressValues_eq_nat 150 (by norm_num)
  have h2 : (progressValues 150).getD 2 0 = 2 := by rw [h]; decide
  have h3 : (progressValues 150).getD 3 0 = 2 := by rw [h]; decide
  have hlen : (progressValues 150).length = 149 := by rw [h]; decide
  refine ⟨h2, h3, fun hc => ?_⟩
  have hlt := List.chain'_iff_get.mp hc 2 (by omega)
  rw [List.get_eq_getElem, List.get_eq_getElem,
    ← List.getD_eq_getElem (progressValues 150) 0 (by omega),
    ← List.getD_eq_getElem (progressValues 150) 0 (by omega), h2, h3] at hlt
  exact lt_irrefl _ hlt

/-! ### Claim C4 -/

/-- Claim C4: for every non-empty ascending-sorted sequence and `p ∈ [0, 100]`,
`percentile` returns `value[lower]*(1-weight) + value[upper]*weight` with
`idx = (p/100)*(n-1)`, `lower = floor idx`, `upper = ceil idx`,
`weight = idx - lower`; it returns 0 on the empty sequence; and on
`[10,20,30,40,50]` it returns 30, 10, 50 and 20 at p = 50, 0, 100 and 25. -/
theorem percentile_spec (l : List ℚ) (p : ℚ) (hl : l ≠ []) (hs : l.Sorted (· ≤ ·))
    (hp0 : 0 ≤ p) (hp1 : p ≤ 100) :
    (percentile l p =
      l.getD (⌊(p / 100) * ((l.length : ℚ) - 1)⌋).toNat 0 *
          (1 - ((p / 100) * ((l.length : ℚ) - 1) - (⌊(p / 100) * ((l.length : ℚ) - 1)⌋ : ℚ))) +
        l.getD (⌈(p / 100) * ((l.length : ℚ) - 1)⌉).toNat 0 *
          ((p / 100) * ((l.length : ℚ) - 1) - (⌊(p / 100) * ((l.length : ℚ) - 1)⌋ : ℚ))) ∧
    (∀ q : ℚ, percentile [] q = 0) ∧
    percentile [10, 20, 30, 40, 50] 50 = 30 ∧
    percentile [10, 20, 30, 40, 50] 0 = 10 ∧
    percentile [10, 20, 30, 40, 50] 100 = 50 ∧
    percentile [10, 20, 30, 40, 50] 25 = 20 := by
  refine ⟨?_, ?_, ?_, ?_, ?_, ?_⟩
  · have hlen : l.length ≠ 0 := by simpa using hl
    have hlen1 : (1 : ℚ) ≤ (l.length : ℚ) := by
      exact_mod_cast Nat.one_le_iff_ne_zero.mpr hlen
    set x := (p / 100) * ((l.length : ℚ) - 1) with hxdef
    have hx0 : 0 ≤ x := mul_nonneg (by positivity) (by linarith)
    have hw : jsMod1 x = x - (⌊x⌋ : ℚ) := by rw [jsMod1, if_pos hx0]
    simp only [percentile, if_neg hlen]
    rw [← hxdef, hw]
    by_cases hfc : ⌊x⌋ = ⌈x⌉
    · have hxe : x = (⌊x⌋ : ℚ) := by
        have h1 := Int.floor_le x
        have h2 := Int.le_ceil x
        rw [← hfc] at h2
        linarith
      rw [if_pos hfc, ← hxe]
      ring_nf
    · rw [if_neg hfc]
  · intro q
    simp [percentile]
  · norm_num [percentile, jsMod1]
    rfl
  · norm_num [percentile, jsMod1]
  · norm_num [percentile, jsMod1]
    rfl
  · norm_num [percentile, jsMod1]

/-- Claim C4 witness: the claim instantiated on the sorted array
`[10,20,30,40,50]` at p = 25. -/
theorem percentile_spec_witness : percentile [10, 20, 30, 40, 50] 25 = 20 :=
  (percentile_spec [10, 20, 30, 40, 50] 25 (by simp) (by norm_num [List.Sorted])
    (by norm_num) (by norm_num)).2.2.2.2.2

/-! ### Claim C5 -/

/-- Claim C5 (amended): for every run with iterations ≥ 100, a progress
notification is emitted at exactly the loop indices passing the guard
(positive multiples of `floor(iterations/100)`), carrying
`floor(100*i/iterations)`; the number of progress notifications is
`(iterations-1)/floor(iterations/100)`, which is at most 198 (so bounded,
but it can approach 200 rather than the claimed ~100). -/
theorem progress_emission_spec (it : ℕ) (h : 100 ≤ it) :
    progressValues it =
      ((List.range it).filter (fun i => progressGuard (it / 100) i)).map
        (fun i => (((i * 100) / it : ℕ) : ℤ)) ∧
    (progressValues it).length = (it - 1) / (it / 100) ∧
    (progressValues it).length ≤ 198 := by
  have h0 : 0 < it := by omega
  have heq : progressValues it =
      ((List.range it).filter (fun i => progressGuard (it / 100) i)).map
        (fun i => (((i * 100) / it : ℕ) : ℤ)) := by
    rw [progressValues_eq_nat _ h0, filterMap_if_eq_map_filter]
  have hlen : (progressValues it).length = (it - 1) / (it / 100) := by
    rw [heq, List.length_map, length_filter_guard]
  refine ⟨heq, hlen, ?_⟩
  rw [hlen]
  set q := it / 100 with hq
  have hq1 : 1 ≤ q := by
    rw [hq]
    exact (Nat.one_le_div_iff (by norm_num)).mpr h
  have hub : it - 1 ≤ 100 * q + 98 := by
    have hdm := Nat.div_add_mod it 100
    have hm : it % 100 ≤ 99 := Nat.le_of_lt_succ (Nat.mod_lt _ (by norm_num))
    omega
  calc (it - 1) / q ≤ (100 * q + 98) / q := Nat.div_le_div_right hub
    _ = 98 / q + 100 := by
        rw [Nat.add_comm (100 * q) 98, Nat.mul_comm 100 q, Nat.add_mul_div_left _ _ (by omega)]
    _ ≤ 198 := by
        have h98 : 98 / q ≤ 98 := Nat.div_le_self _ _
        omega

/-- Claim C5 witness: the amended claim instantiated at 250 iterations. -/
theorem progress_emission_witness : (progressValues 250).length ≤ 198 :=
  (progress_emission_spec 250 (by norm_num)).2.2

set_option maxRecDepth 4000 in
/-- Claim C5 counterexample: a run with 199 iterations emits 198 progress
notifications, far more than the claimed bound of about 100 per run. -/
theorem progress_flood_counterexample :
    100 < (progressValues 199).length ∧ (progressValues 199).length = 198 := by
  have h := progressValues_eq_nat 199 (by norm_num)
  constructor <;> rw [h] <;> decide

/-! ### Claim C6 -/

/-- Claim C6: for every parameter bundle and every sequence of sampled returns,
the produced path satisfies `success = (finalBalance > 0)` and `finalBalance`
equals the last element of the recorded trajectory. -/
theorem success_and_final_consistency (params : SimulationParams) (returns : List ℚ) :
    ((runSingleSimulation params returns).success = true ↔
      (runSingleSimulation params returns).finalBalance > 0) ∧
    (runSingleSimulation params returns).yearByYear.getLastD 0 =
      (runSingleSimulation params returns).finalBalance := by
  constructor
  · simp [runSingleSimulation]
  · simp only [runSingleSimulation]
    rw [List.getLastD_cons]
    exact simLoop_getLastD _ _ _ _

/-! ### Claim C7 -/

/-- Claim C7 (amended): for parameters with `startingBalance = 0`,
`firstYearWithdrawal ≥ 0`, `inflationRatePct ≥ -100` and `yearsInRetirement ≥ 1`
the path always fails (`success = false`) — also when the withdrawal is 0,
because the final balance is then 0 and success requires `finalBalance > 0`. -/
theorem zero_start_always_fails (params : SimulationParams) (returns : List ℚ)
    (hsb : params.startingBalance = 0) (hw : 0 ≤ params.annualWithdrawal)
    (hinfl : -100 ≤ params.inflationRate) (hy : 1 ≤ params.yearsInRetirement) :
    (runSingleSimulation params returns).success = false := by
  simp only [runSingleSimulation]
  rw [hsb, (simLoop_zero params.inflationRate hinfl returns params.annualWithdrawal hw).2]
  simp

/-- Claim C7 witness: the amended claim instantiated at zero starting balance
and zero withdrawal. -/
theorem zero_start_fails_witness :
    (runSingleSimulation ZeroZeroParams [1]).success = false :=
  zero_start_always_fails ZeroZeroParams [1] rfl (by norm_num [ZeroZeroParams])
    (by norm_num [ZeroZeroParams]) (by norm_num [ZeroZeroParams])

/-- Claim C7 counterexample: with `startingBalance = 0` and withdrawal also 0,
the path still fails (`success = false`, since the final balance is 0, not
positive), contradicting the claim that the path does not fail in this case. -/
theorem zero_withdrawal_still_fails :
    ZeroZeroParams.startingBalance = 0 ∧ ZeroZeroParams.annualWithdrawal = 0 ∧
    1 ≤ ZeroZeroParams.yearsInRetirement ∧
    (runSingleSimulation ZeroZeroParams [5 / 100]).success = false := by
  refine ⟨rfl, rfl, by norm_num [ZeroZeroParams], ?_⟩
  norm_num [ZeroZeroParams, runSingleSimulation, simLoop]

/-! ### Claim C8 -/

/-- Claim C8: for every allocation and every triple of standard-normal draws,
the sampler's blended one-year return equals
`(equitiesPct/100)*(0.10 + 0.18*zE) + (bondsPct/100)*(0.05 + 0.06*zB) +
(cashPct/100)*(0.02 + 0.01*zC)`, with one independent draw per asset class
(modelled by the three separate draw parameters). -/
theorem generateRandomReturn_blend (eP bP cP zE zB zC : ℚ) :
    generateRandomReturn eP bP cP zE zB zC =
      (eP / 100) * (0.10 + 0.18 * zE) + (bP / 100) * (0.05 + 0.06 * zB) +
        (cP / 100) * (0.02 + 0.01 * zC) := by
  simp only [generateRandomReturn, ASSET_CLASS_STATS]
  ring

/-! ### Claim C9 -/

/-- Claim C9: for every run with 1 ≤ iterations ≤ 99, the progress interval
`floor(iterations/100)` is 0, the guard never fires, no progress notification
is emitted, and the run's only message is the single completion message. -/
theorem no_progress_below_100 (params : SimulationParams) (m : List (List ℚ))
    (h1 : 1 ≤ params.iterations) (h2 : params.iterations ≤ 99) :
    progressValues params.iterations = [] ∧
    runMessages params m = [WorkerMsg.complete (computeResults params m)] := by
  have hq : params.iterations / 100 = 0 := Nat.div_eq_of_lt (by omega)
  have hempty : progressValues params.iterations = [] := by
    rw [progressValues, hq]
    apply List.filterMap_eq_nil.mpr
    intro i hi
    have hg : progressGuard 0 i = false := by
      cases i <;> simp [progressGuard]
    rw [hg]
    simp
  refine ⟨hempty, ?_⟩
  rw [runMessages, hempty]
  rfl

/-- Claim C9 witness: the claim instantiated on a 50-iteration run. -/
theorem no_progress_witness : progressValues SmallRunParams.iterations = [] :=
  (no_progress_below_100 SmallRunParams [] (by norm_num [SmallRunParams])
    (by norm_num [SmallRunParams])).1

/-! ### Claim C10 -/

/-- Claim C10: for every non-empty array and `p ∈ [0, 100]`, the indices
`lower = floor((p/100)*(n-1))` and `upper = ceil((p/100)*(n-1))` computed by
`percentile` both lie in `[0, n-1]`; consequently `percentile` never accesses
the array out of bounds: its value is built from in-bounds `List.get` reads
(the `getD` defaults are never used) and it is total on this domain. -/
theorem percentile_index_bounds (l : List ℚ) (p : ℚ) (hl : l ≠ []) (hp0 : 0 ≤ p)
    (hp1 : p ≤ 100) :
    0 ≤ ⌊(p / 100) * ((l.length : ℚ) - 1)⌋ ∧
    ⌊(p / 100) * ((l.length : ℚ) - 1)⌋ ≤ ⌈(p / 100) * ((l.length : ℚ) - 1)⌉ ∧
    ⌈(p / 100) * ((l.length : ℚ) - 1)⌉ ≤ (l.length : ℤ) - 1 ∧
    (⌊(p / 100) * ((l.length : ℚ) - 1)⌋).toNat < l.length ∧
    (⌈(p / 100) * ((l.length : ℚ) - 1)⌉).toNat < l.length ∧
    ∀ (hlow : (⌊(p / 100) * ((l.length : ℚ) - 1)⌋).toNat < l.length)
      (hup : (⌈(p / 100) * ((l.length : ℚ) - 1)⌉).toNat < l.length),
      percentile l p =
        if ⌊(p / 100) * ((l.length : ℚ) - 1)⌋ = ⌈(p / 100) * ((l.length : ℚ) - 1)⌉ then
          l.get ⟨(⌊(p / 100) * ((l.length : ℚ) - 1)⌋).toNat, hlow⟩
        else
          l.get ⟨(⌊(p / 100) * ((l.length : ℚ) - 1)⌋).toNat, hlow⟩ *
              (1 - jsMod1 ((p / 100) * ((l.length : ℚ) - 1))) +
            l.get ⟨(⌈(p / 100) * ((l.length : ℚ) - 1)⌉).toNat, hup⟩ *
              jsMod1 ((p / 100) * ((l.length : ℚ) - 1)) := by
  have hlen : l.length ≠ 0 := by simpa using hl
  have hlenN : 1 ≤ l.length := Nat.one_le_iff_ne_zero.mpr hlen
  have hlen1 : (1 : ℚ) ≤ (l.length : ℚ) := by exact_mod_cast hlenN
  set x := (p / 100) * ((l.length : ℚ) - 1) with hxdef
  have hx0 : 0 ≤ x := mul_nonneg (by positivity) (by linarith)
  have h1 : 0 ≤ ⌊x⌋ := Int.floor_nonneg.mpr hx0
  have h2 : ⌊x⌋ ≤ ⌈x⌉ := Int.floor_le_ceil x
  have hxle : x ≤ (l.length : ℚ) - 1 := by
    have hp : p / 100 ≤ 1 := by linarith
    calc x ≤ 1 * ((l.length : ℚ) - 1) :=
          mul_le_mul_of_nonneg_right hp (by linarith)
      _ = (l.length : ℚ) - 1 := one_mul _
  have h3 : ⌈x⌉ ≤ (l.length : ℤ) - 1 := by
    apply Int.ceil_le.mpr
    push_cast
    exact hxle
  have h4 : (1 : ℤ) ≤ (l.length : ℤ) := by exact_mod_cast hlenN
  refine ⟨h1, h2, h3, by omega, by omega, ?_⟩
  intro hlow hup
  simp only [percentile, if_neg hlen]
  rw [← hxdef]
  by_cases hfc : ⌊x⌋ = ⌈x⌉
  · rw [if_pos hfc, if_pos hfc, List.getD_eq_getElem l 0 hlow, List.get_eq_getElem]
  · rw [if_neg hfc, if_neg hfc, List.getD_eq_getElem l 0 hlow,
      List.getD_eq_getElem l 0 hup, List.get_eq_getElem, List.get_eq_getElem]

/-- Claim C10 witness: the bounds instantiated on `[0, 100]` at p = 95. -/
theorem percentile_index_bounds_witness :
    (⌈(95 / 100 : ℚ) * (((([0, 100] : List ℚ)).length : ℚ) - 1)⌉).toNat <
      ([0, 100] : List ℚ).length :=
  (percentile_index_bounds [0, 100] 95 (by simp) (by norm_num) (by norm_num)).2.2.2.2.1

end MonteCarlo
